import Mathlib

/-!
Verification of the kak-lsp text-edit reconciliation engine and daemon
lifecycle coordinator, shallowly embedded from src/text_edit.rs and
src/main.rs.

Text is modelled as a list of characters; a rope line is a sublist that
keeps its trailing newline (ropey semantics: a document always has at
least one line, and splitting happens after each newline character).
Byte offsets use the UTF-8 size of each character.  Fallible rope
operations (which panic in Rust) are modelled with Option, and
functions whose Rust counterparts can panic return Except String so
that the panic is an observable error value.
-/

deriving instance DecidableEq for Except

namespace KakLsp

/-- Offset encoding selected per request, from src/text_edit.rs.
Utf8 counts UTF-8 code units (bytes); Utf16 is approximated by UTF-8
code points, as the source comments state. -/
inductive OffsetEncoding where
  | Utf8 : OffsetEncoding
  | Utf16 : OffsetEncoding
deriving DecidableEq

/-- LSP position: zero-based line and character, from lsp_types. -/
structure Position where
  line : Nat
  character : Nat
deriving DecidableEq

/-- LSP range: half-open start/end pair.  The field named end in the
source is called endp here because end is a Lean keyword. -/
structure Range where
  start : Position
  endp : Position
deriving DecidableEq

/-- LSP text edit: a range plus replacement text. -/
structure TextEdit where
  range : Range
  new_text : List Char
deriving DecidableEq

/-- Split a text into its rope lines: each line keeps its trailing
newline, and a document always has at least one (possibly empty) line.
This models ropey line indexing. -/
def splitLines : List Char → List (List Char)
  | [] => [[]]
  | c :: rest =>
    if c = '\n' then [c] :: splitLines rest
    else
      match splitLines rest with
      | [] => [[c]]
      | l :: ls => (c :: l) :: ls

/-- Number of rope lines, models Rope.len_lines. -/
def len_lines (t : List Char) : Nat := (splitLines t).length

/-- Fallible line lookup, models Rope.get_line (None when the index is
at or past len_lines). -/
def get_line (t : List Char) (i : Nat) : Option (List Char) := (splitLines t)[i]?

/-- Character index of the start of line i, models Rope.line_to_char
within its panic-free domain. -/
def line_to_char (t : List Char) (i : Nat) : Nat :=
  (((splitLines t).take i).map List.length).sum

/-- Number of UTF-8 bytes of a line, models RopeSlice.len_bytes. -/
def len_bytes (l : List Char) : Nat := (l.map Char.utf8Size).sum

/-- Byte index of the start of line i (sum of the byte lengths of the
preceding lines). -/
def lineStartByte (t : List Char) (i : Nat) : Nat :=
  (((splitLines t).take i).map len_bytes).sum

/-- Models Rope.line_to_byte, which panics when the line index exceeds
len_lines; the panic is modelled as none. -/
def line_to_byte (t : List Char) (i : Nat) : Option Nat :=
  if i ≤ len_lines t then some (lineStartByte t i) else none

/-- Byte offset of the n-th character of a line, models
RopeSlice.char_to_byte. -/
def char_to_byte : List Char → Nat → Nat
  | [], _ => 0
  | _ :: _, 0 => 0
  | c :: rest, n + 1 => c.utf8Size + char_to_byte rest n

/-- Character index containing the given byte of a line, models
RopeSlice.byte_to_char. -/
def byte_to_char : List Char → Nat → Nat
  | [], _ => 0
  | c :: rest, b => if b < c.utf8Size then 0 else 1 + byte_to_char rest (b - c.utf8Size)

/-- UTF-8 bytes of one character. -/
def utf8Bytes (c : Char) : List Nat :=
  let n := c.toNat
  if n < 128 then [n]
  else if n < 2048 then [192 + n / 64, 128 + n % 64]
  else if n < 65536 then [224 + n / 4096, 128 + (n / 64) % 64, 128 + n % 64]
  else [240 + n / 262144, 128 + (n / 4096) % 64, 128 + (n / 64) % 64, 128 + n % 64]

/-- UTF-8 bytes of a character list, models str.as_bytes. -/
def listUtf8 (s : List Char) : List Nat := (s.map utf8Bytes).flatten

/-- From src/text_edit.rs lines 217-223: the CodePoint (UTF-16
approximated as UTF-8 code points) forward translation. -/
def character_to_offset_utf_8_code_points (line : List Char) (character : Nat) : Option Nat :=
  if character < line.length then some character else none

/-- From src/text_edit.rs lines 225-231: the CodeUnit (UTF-8 byte)
forward translation. -/
def character_to_offset_utf_8_code_units (line : List Char) (character : Nat) : Option Nat :=
  if character ≤ len_bytes line then some (byte_to_char line character) else none

/-- From src/text_edit.rs lines 205-215. -/
def character_to_offset (enc : OffsetEncoding) (line : List Char) (character : Nat) : Option Nat :=
  match enc with
  | OffsetEncoding.Utf8 => character_to_offset_utf_8_code_units line character
  | OffsetEncoding.Utf16 => character_to_offset_utf_8_code_points line character

/-- From src/text_edit.rs lines 245-251: the CodePoint reverse
translation to a byte offset. -/
def byte_to_offset_utf_8_code_points (line : List Char) (character : Nat) : Option Nat :=
  if character < line.length then some (char_to_byte line character) else none

/-- From src/text_edit.rs lines 253-259: the CodeUnit reverse
translation (identity on byte offsets). -/
def byte_to_offset_utf_8_code_units (line : List Char) (character : Nat) : Option Nat :=
  if character ≤ len_bytes line then some character else none

/-- From src/text_edit.rs lines 233-243. -/
def byte_to_offset (enc : OffsetEncoding) (line : List Char) (character : Nat) : Option Nat :=
  match enc with
  | OffsetEncoding.Utf8 => byte_to_offset_utf_8_code_units line character
  | OffsetEncoding.Utf16 => byte_to_offset_utf_8_code_points line character

/-- Characters of text from index a (inclusive) to b (exclusive),
models Rope.slice within its panic-free domain. -/
def sliceChars (t : List Char) (a b : Nat) : List Char := (t.take b).drop a

/-- The loop body of apply_text_edits_to_file_impl from
src/text_edit.rs lines 131-182: cursor is the current character
position in the original text, out is the output written so far to the
temporary file.  The two Err branches keep the source error messages;
the panic Rope.slice would raise on an out-of-order cursor is modelled
as a third error. -/
def applyLoop (enc : OffsetEncoding) (text : List Char) :
    List TextEdit → Nat → List Char → Except String (List Char)
  | [], cursor, out => Except.ok (out ++ text.drop cursor)
  | te :: rest, cursor, out =>
    if len_lines text ≤ te.range.start.line ∨ len_lines text ≤ te.range.endp.line then
      Except.error ("Text edit range extends past end of file.")
    else
      match character_to_offset enc ((get_line text te.range.start.line).getD [])
              te.range.start.character,
            character_to_offset enc ((get_line text te.range.endp.line).getD [])
              te.range.endp.character with
      | some so, some eo =>
        let start_char := line_to_char text te.range.start.line + so
        let end_char := line_to_char text te.range.endp.line + eo
        if start_char < cursor then Except.error ("panic: slice start out of order")
        else applyLoop enc text rest end_char (out ++ sliceChars text cursor start_char ++ te.new_text)
      | _, _ => Except.error ("Text edit range points past end of line.")

/-- From src/text_edit.rs lines 125-183: stream the edits over the
original text, producing the full content written to the temporary
file, or the first error. -/
def apply_text_edits_to_file_impl (enc : OffsetEncoding) (text : List Char)
    (text_edits : List TextEdit) : Except String (List Char) :=
  applyLoop enc text text_edits 0 []

/-- Resolve one edit to absolute character offsets exactly as the
file-patch loop does: the same line-bound check and the same
character_to_offset translations. -/
def resolveEdit (enc : OffsetEncoding) (text : List Char) (te : TextEdit) :
    Option (Nat × Nat × List Char) :=
  if len_lines text ≤ te.range.start.line ∨ len_lines text ≤ te.range.endp.line then none
  else
    match character_to_offset enc ((get_line text te.range.start.line).getD [])
            te.range.start.character,
          character_to_offset enc ((get_line text te.range.endp.line).getD [])
            te.range.endp.character with
    | some so, some eo =>
      some (line_to_char text te.range.start.line + so,
        line_to_char text te.range.endp.line + eo, te.new_text)
    | _, _ => none

/-- Resolve a whole batch; none as soon as one edit fails. -/
def resolveEdits (enc : OffsetEncoding) (text : List Char) :
    List TextEdit → Option (List (Nat × Nat × List Char))
  | [] => some []
  | te :: rest =>
    match resolveEdit enc text te, resolveEdits enc text rest with
    | some r, some rs => some (r :: rs)
    | _, _ => none

/-- A resolved edit list is in left-to-right order starting from
cursor c: each edit starts at or after the previous cursor, and the
cursor then moves to its end. -/
def orderedFrom : Nat → List (Nat × Nat × List Char) → Bool
  | _, [] => true
  | c, (s, e, _) :: rest => decide (c ≤ s) && orderedFrom e rest

/-- Modelled from the spec: the exact splice of the original content
and the resolved edits applied left to right.  For each edit the
untouched text from the cursor to the edit start is copied verbatim,
the replacement is written, and the cursor advances to the edit end;
after the last edit the remaining tail is copied. -/
def spliceSpec (text : List Char) : Nat → List (Nat × Nat × List Char) → List Char
  | cursor, [] => text.drop cursor
  | cursor, (s, e, t) :: rest => sliceChars text cursor s ++ t ++ spliceSpec text e rest

/-- A file in the modelled filesystem: its content and its permission
bits. -/
structure FileData where
  content : List Char
  mode : Nat
deriving DecidableEq

/-- The modelled filesystem: a partial map from paths to files. -/
def Fs : Type := String → Option FileData

/-- Point update of the modelled filesystem. -/
def fsUpdate (fs : Fs) (p : String) (v : Option FileData) : Fs :=
  fun q => if q = p then v else fs q

/-- From src/text_edit.rs lines 90-194, as a transition on the
modelled filesystem.  The steps mirror the source: stat the original
path (its absence is the stat failure), create the temporary file with
mkstemp (mode 0600 = 384; the caller supplies the unique sibling name
mkstemp generates), run the pure impl, and either rename the temporary
file over the original and chmod it back to the original mode, or
delete the temporary file and surface the error. -/
def apply_text_edits_to_file (fs : Fs) (filename temp_path : String)
    (enc : OffsetEncoding) (text_edits : List TextEdit) : Fs × Except String Unit :=
  match fs filename with
  | none => (fs, Except.error ("Failed to stat"))
  | some fd =>
    let fs1 := fsUpdate fs temp_path (some (FileData.mk [] 384))
    match apply_text_edits_to_file_impl enc fd.content text_edits with
    | Except.error e => (fsUpdate fs1 temp_path none, Except.error e)
    | Except.ok out =>
      let fs2 := fsUpdate fs1 temp_path (some (FileData.mk out 384))
      let fs3 := fsUpdate (fsUpdate fs2 filename (fs2 temp_path)) temp_path none
      let fs4 :=
        match fs3 filename with
        | some f => fsUpdate fs3 filename (some (FileData.mk f.content fd.mode))
        | none => fs3
      (fs4, Except.ok ())

/-- Sort key comparison used by apply_text_edits_to_buffer: stable
sort by (range.start, range.end), each Position ordered by line then
character, as the derived Ord of lsp_types does. -/
def posLtb (a b : Position) : Bool :=
  decide (a.line < b.line) || (decide (a.line = b.line) && decide (a.character < b.character))

/-- Strict lexicographic order on the (start, end) sort key. -/
def teLt (a b : TextEdit) : Bool :=
  posLtb a.range.start b.range.start ||
    (decide (a.range.start = b.range.start) && posLtb a.range.endp b.range.endp)

/-- Insert an edit before the first element not strictly below it;
inserting an earlier element this way places it before key-equal later
elements, which is exactly stability. -/
def insertSorted (e : TextEdit) : List TextEdit → List TextEdit
  | [] => [e]
  | x :: xs => if teLt x e then x :: insertSorted e xs else e :: x :: xs

/-- Stable sort of the edits by the (start, end) key, models
Vec.sort_by_key at src/text_edit.rs line 277 (a stable sort by key is
unique, so stable insertion sort is the same function as the stable
sort the source uses). -/
def sortEdits : List TextEdit → List TextEdit
  | [] => []
  | x :: xs => insertSorted x (sortEdits xs)

/-- Absolute byte offset of a position in the buffer path, from
src/text_edit.rs lines 288-296: the column lookup degrades to 0 on
failure (get_line none or byte_to_offset none), while line_to_byte
panics when the line index exceeds len_lines; the panic is the error
case. -/
def computeOffset (enc : OffsetEncoding) (text : List Char) (p : Position) :
    Except String Nat :=
  match line_to_byte text p.line with
  | none => Except.error ("panic: line_to_byte index out of bounds")
  | some lb =>
    Except.ok (lb + ((get_line text p.line).bind
      (fun l => byte_to_offset enc l p.character)).getD 0)

/-- The coalescing walk of apply_text_edits_to_buffer, src/text_edit.rs
lines 282-306.  offset is the running last-consumed offset, accRev the
coalesced edits in reverse push order (so the most recent entry is the
head, matching Vec.last_mut).  When an edit starts exactly at the
running offset and a previous entry exists, the source asserts that
the edit starts at the previous entry's end position and then merges;
a failed assertion is the error case. -/
def coalesceLoop (enc : OffsetEncoding) (text : List Char) :
    Nat → List TextEdit → List TextEdit → Except String (List TextEdit)
  | _, accRev, [] => Except.ok accRev.reverse
  | offset, accRev, edit :: rest =>
    match computeOffset enc text edit.range.start,
          computeOffset enc text edit.range.endp with
    | Except.ok start_offset, Except.ok end_offset =>
      match accRev with
      | last :: accTail =>
        if start_offset = offset then
          if edit.range.start = last.range.endp then
            coalesceLoop enc text end_offset
              (TextEdit.mk (Range.mk last.range.start edit.range.endp)
                (last.new_text ++ edit.new_text) :: accTail) rest
          else Except.error ("assertion failed: start == last.range.end")
        else coalesceLoop enc text end_offset (edit :: last :: accTail) rest
      | [] => coalesceLoop enc text end_offset [edit] rest
    | Except.error e, _ => Except.error e
    | _, Except.error e => Except.error e

/-- The byte content currently occupying a single-line edit's range,
as the redundancy filter of src/text_edit.rs lines 328-333 computes
it: look the line up (Rope.line panics out of bounds), translate both
characters to byte offsets (each unwrap panics on failure), and take
the bytes between them.  Panics are the error case. -/
def lineRangeBytes (enc : OffsetEncoding) (text : List Char) (e : TextEdit) :
    Except String (List Nat) :=
  match get_line text e.range.start.line with
  | none => Except.error ("panic: line index out of bounds")
  | some line =>
    match byte_to_offset enc line e.range.start.character,
          byte_to_offset enc line e.range.endp.character with
    | some start_byte, some end_byte =>
      Except.ok (((listUtf8 line).drop start_byte).take (end_byte - start_byte))
    | _, _ => Except.error ("panic: unwrap on None")

/-- Whether one coalesced edit survives the redundancy filter,
src/text_edit.rs lines 310-336: a multi-line edit always survives; a
single-line edit survives exactly when its replacement bytes differ
from the bytes currently occupying its range. -/
def keepEdit (enc : OffsetEncoding) (text : List Char) (e : TextEdit) :
    Except String Bool :=
  if e.range.start.line = e.range.endp.line then
    match lineRangeBytes enc text e with
    | Except.error m => Except.error m
    | Except.ok bs => Except.ok (decide ¬ (listUtf8 e.new_text = bs))
  else Except.ok true

/-- The redundancy filter applied to the coalesced list, preserving
order, models Iterator.filter at src/text_edit.rs lines 308-336. -/
def redundancyFilter (enc : OffsetEncoding) (text : List Char) :
    List TextEdit → Except String (List TextEdit)
  | [] => Except.ok []
  | e :: rest =>
    match keepEdit enc text e, redundancyFilter enc text rest with
    | Except.ok b, Except.ok r => Except.ok (if b then e :: r else r)
    | Except.error m, _ => Except.error m
    | _, Except.error m => Except.error m

/-- From src/text_edit.rs lines 260-338: the normalization pipeline of
apply_text_edits_to_buffer, up to the list of surviving edits.  An
empty input returns none (the source returns no script); otherwise the
edits are stable-sorted, coalesced and redundancy-filtered, and each
surviving edit is emitted into the script one for one (the script
rendering itself lives in code outside src/text_edit.rs and adds or
removes no edit).  A panic anywhere is the error case. -/
def apply_text_edits_to_buffer (enc : OffsetEncoding) (text : List Char)
    (text_edits : List TextEdit) : Except String (Option (List TextEdit)) :=
  if text_edits.isEmpty then Except.ok none
  else
    match coalesceLoop enc text 0 [] (sortEdits text_edits) with
    | Except.error m => Except.error m
    | Except.ok coalesced_edits =>
      match redundancyFilter enc text coalesced_edits with
      | Except.error m => Except.error m
      | Except.ok edits => Except.ok (some edits)

/-- Terminal outcome of a client invocation with the request flag:
either the raw request bytes were delivered over the socket, or the
invocation failed with a process exit code. -/
inductive RequestOutcome where
  | delivered : List Nat → RequestOutcome
  | failed : Nat → RequestOutcome
deriving DecidableEq

/-- The retry loop of src/main.rs lines 275-282: attempt the
connection for each remaining try; on success deliver the raw bytes,
on failure sleep 30 ms and continue; exhausting every try prints a
diagnostic and exits 1 via goodbye.  connect is the environment
oracle saying whether the connection attempt with a given index
succeeds; the second component accumulates the slept milliseconds. -/
def retryLoop (connect : Nat → Bool) (raw : List Nat) :
    Nat → Nat → RequestOutcome × Nat
  | 0, _ => (RequestOutcome.failed 1, 0)
  | n + 1, i =>
    if connect i then (RequestOutcome.delivered raw, 0)
    else
      let r := retryLoop connect raw n (i + 1)
      (r.1, 30 + r.2)

/-- The request branch of main, src/main.rs lines 242-282: first try
to connect (attempt 0); on failure create the lock file (a creation
failure exits 1); if the exclusive lock is acquired the invocation
spawns the server and pipes the raw bytes to it; otherwise retry the
connection up to 10 times starting at attempt index 1. -/
def requestMain (connect : Nat → Bool) (lockCreateOk lockAcquired : Bool)
    (raw : List Nat) : RequestOutcome × Nat :=
  if connect 0 then (RequestOutcome.delivered raw, 0)
  else if lockCreateOk = false then (RequestOutcome.failed 1, 0)
  else if lockAcquired then (RequestOutcome.delivered raw, 0)
  else retryLoop connect raw 10 1

/-- Existence view of the filesystem used for the exit path. -/
def removeFile (fs : String → Bool) (p : String) : String → Bool :=
  fun q => if q = p then false else fs q

/-- The session control socket path, tempdir joined with the lsp
session id (src/main.rs line 511). -/
def sockPath (tempdir lsp_session : String) : String := tempdir ++ "/" ++ lsp_session

/-- The session pid file path (src/main.rs line 512). -/
def pidPath (tempdir lsp_session : String) : String :=
  tempdir ++ "/" ++ lsp_session ++ ".pid"

/-- From src/main.rs lines 508-525 (goodbye): on exit code 0 remove
the socket file, then remove the pid file if it exists; on any other
code remove nothing. -/
def goodbye (fs : String → Bool) (tempdir lsp_session : String) (code : Int) :
    String → Bool :=
  if code = 0 then
    let fs1 := removeFile fs (sockPath tempdir lsp_session)
    if fs1 (pidPath tempdir lsp_session) then
      removeFile fs1 (pidPath tempdir lsp_session)
    else fs1
  else fs

/-- A one-file sample filesystem used for concrete witnesses. -/
def sampleFs : Fs :=
  fun p => if p = "f" then some (FileData.mk ['a'] 420) else none

/-- A sample existence view with the session socket, pid file and one
unrelated path present, used for a concrete witness. -/
def sampleExistFs : String → Bool :=
  fun p => decide (p = "t/s") || decide (p = "t/s.pid") || decide (p = "other")

/-- C7 counterexample: on the two-character line ab, character index 2
satisfies the claimed bound (2 is less than or equal to the line
character count 2), yet the CodePoint forward translation fails, so
the claimed if-and-only-if with a non-strict bound is false. -/
theorem c7_counterexample :
    2 ≤ (['a', 'b'] : List Char).length ∧
      character_to_offset_utf_8_code_points ['a', 'b'] 2 = none := by
  constructor
  · decide
  · decide

/-- C7 amended: under the CodePoint encoding, forward translation
succeeds if and only if the character index is strictly less than the
line character count, in which case it returns the index itself; the
same strict bound governs the reverse direction, which returns the
byte offset of that character. -/
theorem c7_code_point_strict_bound (line : List Char) (character : Nat) :
    ((character_to_offset_utf_8_code_points line character).isSome ↔
        character < line.length) ∧
      ((byte_to_offset_utf_8_code_points line character).isSome ↔
        character < line.length) ∧
      (character < line.length →
        character_to_offset_utf_8_code_points line character = some character) ∧
      (character < line.length →
        byte_to_offset_utf_8_code_points line character =
          some (char_to_byte line character)) := by
  refine ⟨?_, ?_, ?_, ?_⟩
  · unfold character_to_offset_utf_8_code_points
    split <;> simp_all
  · unfold byte_to_offset_utf_8_code_points
    split <;> simp_all
  · intro h
    unfold character_to_offset_utf_8_code_points
    rw [if_pos h]
  · intro h
    unfold byte_to_offset_utf_8_code_points
    rw [if_pos h]

/-- C7 witness: the amended bound evaluated on the line ab at character
index 1 (in bounds) and, via the iff, at index 2 (out of bounds). -/
theorem c7_witness :
    character_to_offset_utf_8_code_points ['a', 'b'] 1 = some 1 ∧
      byte_to_offset_utf_8_code_points ['a', 'b'] 1 = some (char_to_byte ['a', 'b'] 1) := by
  exact ⟨(c7_code_point_strict_bound ['a', 'b'] 1).2.2.1 (by decide),
    (c7_code_point_strict_bound ['a', 'b'] 1).2.2.2 (by decide)⟩

/-- Helper for C1: with a resolvable, order-respecting batch, the
file-patch loop never takes an error branch and its accumulator equals
the spec splice from the current cursor. -/
theorem applyLoop_eq_splice (enc : OffsetEncoding) (text : List Char)
    (edits : List TextEdit) :
    ∀ (resolved : List (Nat × Nat × List Char)) (cursor : Nat) (out : List Char),
      resolveEdits enc text edits = some resolved →
      orderedFrom cursor resolved = true →
      applyLoop enc text edits cursor out = Except.ok (out ++ spliceSpec text cursor resolved) := by
  induction edits with
  | nil =>
    intro resolved cursor out hres _hord
    simp only [resolveEdits, Option.some.injEq] at hres
    subst hres
    simp [applyLoop, spliceSpec]
  | cons te rest ih =>
    intro resolved cursor out hres hord
    by_cases hb : len_lines text ≤ te.range.start.line ∨ len_lines text ≤ te.range.endp.line
    · rw [resolveEdits, resolveEdit, if_pos hb] at hres
      simp at hres
    · rw [resolveEdits, resolveEdit, if_neg hb] at hres
      cases hso : character_to_offset enc ((get_line text te.range.start.line).getD [])
          te.range.start.character with
      | none => rw [hso] at hres; simp at hres
      | some so =>
        cases heo : character_to_offset enc ((get_line text te.range.endp.line).getD [])
            te.range.endp.character with
        | none => rw [hso, heo] at hres; simp at hres
        | some eo =>
          rw [hso, heo] at hres
          cases hrs : resolveEdits enc text rest with
          | none => rw [hrs] at hres; simp at hres
          | some rs =>
            rw [hrs] at hres
            simp only [Option.some.injEq] at hres
            subst hres
            simp only [orderedFrom, Bool.and_eq_true, decide_eq_true_eq] at hord
            obtain ⟨hcs, hordrest⟩ := hord
            simp only [applyLoop]
            rw [if_neg hb, hso, heo]
            simp only []
            rw [if_neg (Nat.not_lt.mpr hcs)]
            rw [ih rs (line_to_char text te.range.endp.line + eo)
              (out ++ sliceChars text cursor (line_to_char text te.range.start.line + so)
                ++ te.new_text) hrs hordrest]
            simp [spliceSpec, List.append_assoc]

/-- C1: for an in-bounds edit list given in left-to-right order, the
file patcher produces exactly the spec splice of the original text and
the edits: edits are consumed in the order given with no re-sorting or
re-coalescing, untouched text up to each edit start is copied
verbatim, each replacement is written, the cursor advances to each
edit end, and the remaining tail is copied after the last edit. -/
theorem c1_file_patch_is_splice (enc : OffsetEncoding) (text : List Char)
    (edits : List TextEdit) (resolved : List (Nat × Nat × List Char))
    (hres : resolveEdits enc text edits = some resolved)
    (hord : orderedFrom 0 resolved = true) :
    apply_text_edits_to_file_impl enc text edits = Except.ok (spliceSpec text 0 resolved) := by
  unfold apply_text_edits_to_file_impl
  simpa using applyLoop_eq_splice enc text edits resolved 0 [] hres hord

/-- C1 witness: patching abcd with the single edit replacing the range
(0,1)-(0,2) by X yields aXcd, the exact splice. -/
theorem c1_witness :
    resolveEdits OffsetEncoding.Utf8 ['a', 'b', 'c', 'd']
        [TextEdit.mk (Range.mk (Position.mk 0 1) (Position.mk 0 2)) ['X']] =
      some [(1, 2, ['X'])] ∧
    orderedFrom 0 [(1, 2, ['X'])] = true ∧
    apply_text_edits_to_file_impl OffsetEncoding.Utf8 ['a', 'b', 'c', 'd']
        [TextEdit.mk (Range.mk (Position.mk 0 1) (Position.mk 0 2)) ['X']] =
      Except.ok (spliceSpec ['a', 'b', 'c', 'd'] 0 [(1, 2, ['X'])]) := by
  refine ⟨by decide, by decide, ?_⟩
  exact c1_file_patch_is_splice OffsetEncoding.Utf8 ['a', 'b', 'c', 'd']
    [TextEdit.mk (Range.mk (Position.mk 0 1) (Position.mk 0 2)) ['X']]
    [(1, 2, ['X'])] (by decide) (by decide)

/-- C2: with the original file present and a fresh uniquely named
sibling temporary path, a failing batch (range or column out of
bounds) leaves the original path byte-for-byte unchanged and deletes
the temporary file, while a successful batch installs the impl output
at the original path with the original permission bits and removes the
temporary file; no other path is touched in either case. -/
theorem c2_file_patch_effects (fs : Fs) (filename temp_path : String)
    (enc : OffsetEncoding) (text_edits : List TextEdit) (fd : FileData)
    (hne : temp_path ≠ filename) (hfresh : fs temp_path = none)
    (horig : fs filename = some fd) :
    (∀ msg,
        (apply_text_edits_to_file fs filename temp_path enc text_edits).2 = Except.error msg →
        (apply_text_edits_to_file fs filename temp_path enc text_edits).1 filename = some fd ∧
        (apply_text_edits_to_file fs filename temp_path enc text_edits).1 temp_path = none ∧
        ∀ p, (apply_text_edits_to_file fs filename temp_path enc text_edits).1 p = fs p) ∧
    ((apply_text_edits_to_file fs filename temp_path enc text_edits).2 = Except.ok () →
      ∃ out, apply_text_edits_to_file_impl enc fd.content text_edits = Except.ok out ∧
        (apply_text_edits_to_file fs filename temp_path enc text_edits).1 filename =
          some (FileData.mk out fd.mode) ∧
        (apply_text_edits_to_file fs filename temp_path enc text_edits).1 temp_path = none ∧
        ∀ p, p ≠ filename → p ≠ temp_path →
          (apply_text_edits_to_file fs filename temp_path enc text_edits).1 p = fs p) := by
  have hfn : filename ≠ temp_path := Ne.symm hne
  unfold apply_text_edits_to_file
  simp only [horig]
  cases himpl : apply_text_edits_to_file_impl enc fd.content text_edits with
  | error e =>
    constructor
    · intro msg _hmsg
      refine ⟨?_, ?_, ?_⟩
      · simp [fsUpdate, hfn, horig]
      · simp [fsUpdate]
      · intro p
        by_cases hp : p = temp_path
        · subst hp
          simp [fsUpdate, hfresh]
        · simp [fsUpdate, hp]
    · intro hok
      simp at hok
  | ok out =>
    constructor
    · intro msg hmsg
      simp at hmsg
    · intro _hok
      refine ⟨out, rfl, ?_, ?_, ?_⟩
      · simp [fsUpdate, hfn, hne]
      · simp [fsUpdate, hfn, hne]
      · intro p hp1 hp2
        simp [fsUpdate, hfn, hne, hp1, hp2]

/-- C2 witness: on the sample filesystem holding file f with content a
and mode 420, an out-of-bounds edit aborts, leaving f unchanged, the
temporary sibling absent, and an unrelated path untouched. -/
theorem c2_witness :
    (apply_text_edits_to_file sampleFs "f" "f.tmpX" OffsetEncoding.Utf8
        [TextEdit.mk (Range.mk (Position.mk 5 0) (Position.mk 5 0)) ['z']]).1 "f" =
      some (FileData.mk ['a'] 420) ∧
    (apply_text_edits_to_file sampleFs "f" "f.tmpX" OffsetEncoding.Utf8
        [TextEdit.mk (Range.mk (Position.mk 5 0) (Position.mk 5 0)) ['z']]).1 "f.tmpX" = none ∧
    (apply_text_edits_to_file sampleFs "f" "f.tmpX" OffsetEncoding.Utf8
        [TextEdit.mk (Range.mk (Position.mk 5 0) (Position.mk 5 0)) ['z']]).1 "g" =
      sampleFs "g" := by
  have h := c2_file_patch_effects sampleFs "f" "f.tmpX" OffsetEncoding.Utf8
    [TextEdit.mk (Range.mk (Position.mk 5 0) (Position.mk 5 0)) ['z']]
    (FileData.mk ['a'] 420) (by decide) (by decide) (by decide)
  have he := h.1 ("Text edit range extends past end of file.") (by decide)
  exact ⟨he.1, he.2.1, he.2.2 "g"⟩

/-- Helper: within the line bound tolerated by line_to_byte, the
buffer-path offset computation always succeeds, with the failed column
lookup contributing 0. -/
theorem computeOffset_isOk (enc : OffsetEncoding) (text : List Char) (p : Position)
    (h : p.line ≤ len_lines text) :
    computeOffset enc text p =
      Except.ok (lineStartByte text p.line +
        ((get_line text p.line).bind (fun l => byte_to_offset enc l p.character)).getD 0) := by
  unfold computeOffset line_to_byte
  rw [if_pos h]

/-- Helper: sorting a one-element batch is the identity. -/
theorem sortEdits_singleton (e : TextEdit) : sortEdits [e] = [e] := rfl

/-- Helper: a one-element batch coalesces to itself whenever both its
line indices are within the line_to_byte bound, regardless of whether
its column lookups succeed. -/
theorem coalesceLoop_singleton (enc : OffsetEncoding) (text : List Char) (e : TextEdit)
    (h1 : e.range.start.line ≤ len_lines text)
    (h2 : e.range.endp.line ≤ len_lines text) :
    coalesceLoop enc text 0 [] [e] = Except.ok [e] := by
  simp [coalesceLoop, computeOffset_isOk enc text e.range.start h1,
    computeOffset_isOk enc text e.range.endp h2]

/-- C3 counterexample: on the sorted batch of a zero-width insert at
(0,0) followed by an edit at (0,5)-(0,7) of the three-character text
abc, the second edit's translated start offset degrades to 0 (its
column is out of bounds) and so equals the running offset while a
previous coalesced edit exists, yet the walk does not merge it: the
internal assertion fires and the function panics, so the claimed
unconditional merge-on-offset-match is false. -/
theorem c3_counterexample :
    coalesceLoop OffsetEncoding.Utf8 ['a', 'b', 'c'] 0 []
        [TextEdit.mk (Range.mk (Position.mk 0 0) (Position.mk 0 0)) ['x'],
         TextEdit.mk (Range.mk (Position.mk 0 5) (Position.mk 0 7)) ['y']] =
      Except.error ("assertion failed: start == last.range.end") := by
  decide

/-- C3 amended: the coalescing walk merges an edit into the previous
coalesced edit when its translated absolute start offset equals the
running offset, a previous edit exists, and (as the source asserts)
its start position equals the previous edit's end position; in
particular when edit A ends exactly where edit B begins, walking the
sorted two-edit batch from offset 0 yields the single merged edit with
range A.start..B.end and text A.newText ++ B.newText. -/
theorem c3_adjacent_merge (enc : OffsetEncoding) (text : List Char) (A B : TextEdit)
    (hAB : A.range.endp = B.range.start)
    (hA1 : A.range.start.line ≤ len_lines text)
    (hB1 : B.range.start.line ≤ len_lines text)
    (hB2 : B.range.endp.line ≤ len_lines text) :
    coalesceLoop enc text 0 [] [A, B] =
      Except.ok [TextEdit.mk (Range.mk A.range.start B.range.endp)
        (A.new_text ++ B.new_text)] := by
  have hA2 : A.range.endp.line ≤ len_lines text := by
    rw [hAB]
    exact hB1
  simp only [coalesceLoop, computeOffset_isOk enc text A.range.start hA1,
    computeOffset_isOk enc text A.range.endp hA2,
    computeOffset_isOk enc text B.range.start hB1,
    computeOffset_isOk enc text B.range.endp hB2]
  rw [hAB]
  simp

/-- C3 witness: on abc, replacing (0,0)-(0,1) by X and (0,1)-(0,2) by
Y coalesces into one edit (0,0)-(0,2) with text XY. -/
theorem c3_witness :
    coalesceLoop OffsetEncoding.Utf8 ['a', 'b', 'c'] 0 []
        [TextEdit.mk (Range.mk (Position.mk 0 0) (Position.mk 0 1)) ['X'],
         TextEdit.mk (Range.mk (Position.mk 0 1) (Position.mk 0 2)) ['Y']] =
      Except.ok [TextEdit.mk (Range.mk (Position.mk 0 0) (Position.mk 0 2)) ['X', 'Y']] :=
  c3_adjacent_merge OffsetEncoding.Utf8 ['a', 'b', 'c']
    (TextEdit.mk (Range.mk (Position.mk 0 0) (Position.mk 0 1)) ['X'])
    (TextEdit.mk (Range.mk (Position.mk 0 1) (Position.mk 0 2)) ['Y'])
    (by decide) (by decide) (by decide) (by decide)

/-- Helper: every edit surviving the redundancy filter was kept by
keepEdit and came from the input list. -/
theorem redundancyFilter_mem_keep (enc : OffsetEncoding) (text : List Char) :
    ∀ (edits out : List TextEdit), redundancyFilter enc text edits = Except.ok out →
      ∀ e ∈ out, keepEdit enc text e = Except.ok true ∧ e ∈ edits := by
  intro edits
  induction edits with
  | nil =>
    intro out h e he
    simp only [redundancyFilter, Except.ok.injEq] at h
    subst h
    simp at he
  | cons x rest ih =>
    intro out h e he
    rw [redundancyFilter] at h
    cases hk : keepEdit enc text x with
    | error m =>
      rw [hk] at h
      simp at h
    | ok b =>
      cases hr : redundancyFilter enc text rest with
      | error m =>
        rw [hk, hr] at h
        simp at h
      | ok r =>
        rw [hk, hr] at h
        simp only [Except.ok.injEq] at h
        subst h
        cases b with
        | true =>
          rw [if_pos rfl] at he
          rcases List.mem_cons.mp he with he1 | he2
          · subst he1
            exact ⟨hk, List.mem_cons_self _ _⟩
          · exact ⟨(ih r hr e he2).1, List.mem_cons_of_mem _ (ih r hr e he2).2⟩
        | false =>
          rw [if_neg (by simp)] at he
          exact ⟨(ih r hr e he).1, List.mem_cons_of_mem _ (ih r hr e he).2⟩

/-- Helper: an input edit kept by keepEdit is in the filter output. -/
theorem redundancyFilter_keeps (enc : OffsetEncoding) (text : List Char) :
    ∀ (edits out : List TextEdit), redundancyFilter enc text edits = Except.ok out →
      ∀ e ∈ edits, keepEdit enc text e = Except.ok true → e ∈ out := by
  intro edits
  induction edits with
  | nil =>
    intro out _h e he
    simp at he
  | cons x rest ih =>
    intro out h e he hk
    rw [redundancyFilter] at h
    cases hkx : keepEdit enc text x with
    | error m =>
      rw [hkx] at h
      simp at h
    | ok b =>
      cases hr : redundancyFilter enc text rest with
      | error m =>
        rw [hkx, hr] at h
        simp at h
      | ok r =>
        rw [hkx, hr] at h
        simp only [Except.ok.injEq] at h
        subst h
        rcases List.mem_cons.mp he with he1 | he2
        · subst he1
          rw [hk] at hkx
          simp only [Except.ok.injEq] at hkx
          subst hkx
          simp
        · have := ih r hr e he2 hk
          cases b <;> simp [this]

/-- C4: after coalescing, a single-line edit whose replacement bytes
equal the bytes currently occupying its range is absent from the
emitted list (hence from the emitted script), while a multi-line edit
from the coalesced list is always present, even if textually identical
to the existing content. -/
theorem c4_redundancy_filter (enc : OffsetEncoding) (text : List Char)
    (edits out : List TextEdit)
    (h : redundancyFilter enc text edits = Except.ok out) :
    (∀ e : TextEdit, e.range.start.line = e.range.endp.line →
        lineRangeBytes enc text e = Except.ok (listUtf8 e.new_text) → e ∉ out) ∧
    (∀ e ∈ edits, e.range.start.line ≠ e.range.endp.line → e ∈ out) := by
  constructor
  · intro e hline hred hmem
    have hk := (redundancyFilter_mem_keep enc text edits out h e hmem).1
    rw [keepEdit, if_pos hline, hred] at hk
    simp at hk
  · intro e hmem hline
    apply redundancyFilter_keeps enc text edits out h e hmem
    rw [keepEdit, if_neg hline]

/-- C4 witness: on abc, the single-line edit rewriting (0,0)-(0,1) to
its current content a is dropped, while a multi-line edit is kept. -/
theorem c4_witness :
    redundancyFilter OffsetEncoding.Utf8 ['a', 'b', 'c']
        [TextEdit.mk (Range.mk (Position.mk 0 0) (Position.mk 0 1)) ['a'],
         TextEdit.mk (Range.mk (Position.mk 0 1) (Position.mk 1 0)) ['b']] =
      Except.ok [TextEdit.mk (Range.mk (Position.mk 0 1) (Position.mk 1 0)) ['b']] ∧
    TextEdit.mk (Range.mk (Position.mk 0 0) (Position.mk 0 1)) ['a'] ∉
      [TextEdit.mk (Range.mk (Position.mk 0 1) (Position.mk 1 0)) ['b']] ∧
    TextEdit.mk (Range.mk (Position.mk 0 1) (Position.mk 1 0)) ['b'] ∈
      [TextEdit.mk (Range.mk (Position.mk 0 1) (Position.mk 1 0)) ['b']] := by
  refine ⟨by decide, ?_, ?_⟩
  · exact (c4_redundancy_filter OffsetEncoding.Utf8 ['a', 'b', 'c']
      [TextEdit.mk (Range.mk (Position.mk 0 0) (Position.mk 0 1)) ['a'],
       TextEdit.mk (Range.mk (Position.mk 0 1) (Position.mk 1 0)) ['b']]
      [TextEdit.mk (Range.mk (Position.mk 0 1) (Position.mk 1 0)) ['b']] (by decide)).1
      (TextEdit.mk (Range.mk (Position.mk 0 0) (Position.mk 0 1)) ['a'])
      (by decide) (by decide)
  · exact (c4_redundancy_filter OffsetEncoding.Utf8 ['a', 'b', 'c']
      [TextEdit.mk (Range.mk (Position.mk 0 0) (Position.mk 0 1)) ['a'],
       TextEdit.mk (Range.mk (Position.mk 0 1) (Position.mk 1 0)) ['b']]
      [TextEdit.mk (Range.mk (Position.mk 0 1) (Position.mk 1 0)) ['b']] (by decide)).2
      (TextEdit.mk (Range.mk (Position.mk 0 1) (Position.mk 1 0)) ['b'])
      (by decide) (by decide)

/-- C5 counterexample: the edit (0,100)-(1,0) of the text ab, newline,
cd has a failing start-column translation, yet the batch is not
aborted with a caller-visible error: it completes and emits the edit,
silently clamping the failed column, so the claimed abort-on-failure
is false. -/
theorem c5_counterexample :
    (get_line ['a', 'b', '\n', 'c', 'd'] 0).bind
        (fun l => byte_to_offset OffsetEncoding.Utf8 l 100) = none ∧
    apply_text_edits_to_buffer OffsetEncoding.Utf8 ['a', 'b', '\n', 'c', 'd']
        [TextEdit.mk (Range.mk (Position.mk 0 100) (Position.mk 1 0)) ['x']] =
      Except.ok (some [TextEdit.mk (Range.mk (Position.mk 0 100) (Position.mk 1 0)) ['x']]) := by
  constructor <;> decide

/-- C5 amended: in the buffer path a position translation failure does
not abort the batch with a caller-visible error at translation time:
when the position's column lookup fails and its line index is within
the line_to_byte bound, the offset computation succeeds and silently
clamps the column to 0, yielding the byte offset of the line start. -/
theorem c5_silent_clamp (enc : OffsetEncoding) (text : List Char) (p : Position)
    (hline : p.line ≤ len_lines text)
    (hfail : (get_line text p.line).bind (fun l => byte_to_offset enc l p.character) = none) :
    computeOffset enc text p = Except.ok (lineStartByte text p.line) := by
  rw [computeOffset_isOk enc text p hline, hfail]
  simp

/-- C5 witness: position (0,100) on abc has a failing column lookup
and its offset silently clamps to the start of line 0. -/
theorem c5_witness :
    computeOffset OffsetEncoding.Utf8 ['a', 'b', 'c'] (Position.mk 0 100) =
      Except.ok (lineStartByte ['a', 'b', 'c'] 0) :=
  c5_silent_clamp OffsetEncoding.Utf8 ['a', 'b', 'c'] (Position.mk 0 100)
    (by decide) (by decide)

/-- C6 counterexample: a batch containing the single-line edit
(0,0)-(0,100) of abc has a failing end-column lookup, and the batch
does not complete: the redundancy filter's unwrap panics, so the claim
that a column lookup failure never aborts the batch is false. -/
theorem c6_counterexample :
    byte_to_offset OffsetEncoding.Utf8 ['a', 'b', 'c'] 100 = none ∧
    apply_text_edits_to_buffer OffsetEncoding.Utf8 ['a', 'b', 'c']
        [TextEdit.mk (Range.mk (Position.mk 0 0) (Position.mk 0 100)) ['x']] =
      Except.error ("panic: unwrap on None") := by
  constructor <;> decide

/-- C6 amended: a column lookup failure degrades to column 0 during
offset computation and the batch of a multi-line edit still completes
and produces a script; but a single-line coalesced edit whose column
lookup fails panics in the redundancy filter, aborting the batch. -/
theorem c6_column_failure_behavior (enc : OffsetEncoding) (text : List Char) (e : TextEdit) :
    (e.range.start.line ≤ len_lines text → e.range.endp.line ≤ len_lines text →
      e.range.start.line ≠ e.range.endp.line →
      apply_text_edits_to_buffer enc text [e] = Except.ok (some [e])) ∧
    (e.range.start.line = e.range.endp.line → e.range.start.line ≤ len_lines text →
      ∀ m, lineRangeBytes enc text e = Except.error m →
        apply_text_edits_to_buffer enc text [e] = Except.error m) := by
  constructor
  · intro h1 h2 hml
    have hkeep : keepEdit enc text e = Except.ok true := by
      rw [keepEdit, if_neg hml]
    have hfil : redundancyFilter enc text [e] = Except.ok [e] := by
      simp [redundancyFilter, hkeep]
    simp [apply_text_edits_to_buffer, sortEdits_singleton,
      coalesceLoop_singleton enc text e h1 h2, hfil]
  · intro hsl h1 m herr
    have h2 : e.range.endp.line ≤ len_lines text := by
      rw [← hsl]
      exact h1
    have hkeep : keepEdit enc text e = Except.error m := by
      rw [keepEdit, if_pos hsl, herr]
    have hfil : redundancyFilter enc text [e] = Except.error m := by
      simp [redundancyFilter, hkeep]
    simp [apply_text_edits_to_buffer, sortEdits_singleton,
      coalesceLoop_singleton enc text e h1 h2, hfil]

/-- C6 witness: the multi-line edit (0,100)-(1,0) with a failing
column completes on ab, newline, cd; the single-line edit
(0,2)-(0,100) with a failing column panics on abc. -/
theorem c6_witness :
    apply_text_edits_to_buffer OffsetEncoding.Utf8 ['a', 'b', '\n', 'c', 'd']
        [TextEdit.mk (Range.mk (Position.mk 0 100) (Position.mk 1 0)) ['q']] =
      Except.ok (some [TextEdit.mk (Range.mk (Position.mk 0 100) (Position.mk 1 0)) ['q']]) ∧
    apply_text_edits_to_buffer OffsetEncoding.Utf8 ['a', 'b', 'c']
        [TextEdit.mk (Range.mk (Position.mk 0 2) (Position.mk 0 100)) ['q']] =
      Except.error ("panic: unwrap on None") := by
  constructor
  · exact (c6_column_failure_behavior OffsetEncoding.Utf8 ['a', 'b', '\n', 'c', 'd']
      (TextEdit.mk (Range.mk (Position.mk 0 100) (Position.mk 1 0)) ['q'])).1
      (by decide) (by decide) (by decide)
  · exact (c6_column_failure_behavior OffsetEncoding.Utf8 ['a', 'b', 'c']
      (TextEdit.mk (Range.mk (Position.mk 0 2) (Position.mk 0 100)) ['q'])).2
      (by decide) (by decide) ("panic: unwrap on None") (by decide)

/-- C10: the internal assertion in the merge branch can fail: on the
text ab, newline, cd with the in-bounds sorted edits (0,0)-(0,3) and
(1,0)-(1,1), the second edit's start offset equals the running offset
(end of line 0 and start of line 1 are the same byte) but its start
position differs from the previous edit's end position, so the
function panics at the assertion instead of merging. -/
theorem c10_assert_can_fail :
    apply_text_edits_to_buffer OffsetEncoding.Utf8 ['a', 'b', '\n', 'c', 'd']
        [TextEdit.mk (Range.mk (Position.mk 0 0) (Position.mk 0 3)) ['x'],
         TextEdit.mk (Range.mk (Position.mk 1 0) (Position.mk 1 1)) ['y']] =
      Except.error ("assertion failed: start == last.range.end") := by
  decide

/-- Helper: when every remaining attempt fails, the retry loop fails
with exit code 1 after 30 ms of sleep per attempt. -/
theorem retryLoop_exhaust (connect : Nat → Bool) (raw : List Nat) :
    ∀ n i, (∀ j, i ≤ j → j < i + n → connect j = false) →
      retryLoop connect raw n i = (RequestOutcome.failed 1, 30 * n) := by
  intro n
  induction n with
  | zero =>
    intro i _h
    simp [retryLoop]
  | succ m ih =>
    intro i h
    have hi : connect i = false := h i (Nat.le_refl i) (by omega)
    simp only [retryLoop, hi]
    rw [ih (i + 1) (fun j hj1 hj2 => h j (by omega) (by omega))]
    simp
    omega

/-- Helper: the first successful attempt delivers the raw bytes, with
30 ms of sleep for each failed attempt before it. -/
theorem retryLoop_hit (connect : Nat → Bool) (raw : List Nat) :
    ∀ n i k, i ≤ k → k < i + n → connect k = true →
      (∀ j, i ≤ j → j < k → connect j = false) →
      retryLoop connect raw n i = (RequestOutcome.delivered raw, 30 * (k - i)) := by
  intro n
  induction n with
  | zero =>
    intro i k h1 h2 _ _
    omega
  | succ m ih =>
    intro i k h1 h2 hk hprev
    by_cases hik : i = k
    · subst hik
      simp [retryLoop, hk]
    · have hi : connect i = false := hprev i (Nat.le_refl i) (by omega)
      simp only [retryLoop, hi]
      rw [ih (i + 1) k (by omega) (by omega) hk (fun j hj1 hj2 => hprev j (by omega) hj2)]
      simp
      omega

/-- C8: when the initial connection fails and the lock is held by a
competitor, the client retries the connection up to 10 more times with
a fixed 30 ms delay between attempts: the first success delivers the
raw request bytes unmodified (with 30 ms slept per failed attempt
before it), and exhausting all 10 attempts fails with exit code 1
after 300 ms. -/
theorem c8_retry_connect (connect : Nat → Bool) (raw : List Nat)
    (h0 : connect 0 = false) :
    (∀ k, 1 ≤ k → k ≤ 10 → connect k = true →
      (∀ j, 1 ≤ j → j < k → connect j = false) →
      requestMain connect true false raw =
        (RequestOutcome.delivered raw, 30 * (k - 1))) ∧
    ((∀ j, 1 ≤ j → j ≤ 10 → connect j = false) →
      requestMain connect true false raw = (RequestOutcome.failed 1, 300)) := by
  constructor
  · intro k h1 h10 hk hprev
    simp only [requestMain, h0]
    simp only [Bool.false_eq_true, if_false, Bool.true_eq_false, if_true]
    exact retryLoop_hit connect raw 10 1 k h1 (by omega) hk hprev
  · intro hall
    simp only [requestMain, h0]
    simp only [Bool.false_eq_true, if_false, Bool.true_eq_false, if_true]
    rw [retryLoop_exhaust connect raw 10 1 (fun j hj1 hj2 => hall j hj1 (by omega))]

/-- C8 witness: with an oracle where only retry attempt 1 succeeds,
the request is delivered with no sleep; with an oracle that never
succeeds, the invocation fails with exit code 1 after 300 ms. -/
theorem c8_witness :
    requestMain (fun n => decide (n = 1)) true false [7] =
      (RequestOutcome.delivered [7], 0) ∧
    requestMain (fun _ => false) true false [7] = (RequestOutcome.failed 1, 300) := by
  constructor
  · have h := (c8_retry_connect (fun n => decide (n = 1)) [7] (by decide)).1 1
      (Nat.le_refl 1) (by decide) (by decide)
      (fun j hj1 hj2 => absurd (Nat.lt_of_le_of_lt hj1 hj2) (Nat.lt_irrefl 1))
    simpa using h
  · exact (c8_retry_connect (fun _ => false) [7] rfl).2 (fun j _ _ => rfl)

/-- C9: on process exit the session socket file and pid file are
removed exactly when the exit code is zero: a zero exit leaves both
absent and every other path untouched, and a non-zero exit leaves the
whole filesystem unchanged. -/
theorem c9_goodbye_cleanup (fs : String → Bool) (tempdir lsp_session : String)
    (code : Int) :
    (code = 0 →
      goodbye fs tempdir lsp_session code (sockPath tempdir lsp_session) = false ∧
      goodbye fs tempdir lsp_session code (pidPath tempdir lsp_session) = false ∧
      ∀ p, p ≠ sockPath tempdir lsp_session → p ≠ pidPath tempdir lsp_session →
        goodbye fs tempdir lsp_session code p = fs p) ∧
    (code ≠ 0 → goodbye fs tempdir lsp_session code = fs) := by
  have hsp : sockPath tempdir lsp_session ≠ pidPath tempdir lsp_session := by
    intro h
    have hd : (".pid" : String).length = 4 := rfl
    have hl := congrArg String.length h
    simp only [sockPath, pidPath, String.length_append] at hl
    rw [hd] at hl
    omega
  constructor
  · intro h0
    simp only [goodbye, if_pos h0]
    by_cases hb : removeFile fs (sockPath tempdir lsp_session)
        (pidPath tempdir lsp_session) = true
    · rw [if_pos hb]
      refine ⟨?_, ?_, ?_⟩
      · simp [removeFile, hsp]
      · simp [removeFile]
      · intro p hp1 hp2
        simp [removeFile, hp1, hp2]
    · rw [if_neg hb]
      refine ⟨?_, ?_, ?_⟩
      · simp [removeFile]
      · simp only [Bool.not_eq_true] at hb
        exact hb
      · intro p hp1 hp2
        simp [removeFile, hp1, hp2]
  · intro hne
    unfold goodbye
    rw [if_neg hne]

/-- C9 witness: on the sample filesystem, a zero exit removes the
socket and pid files of session s under tempdir t and leaves the
unrelated path alone, while exit code 1 changes nothing. -/
theorem c9_witness :
    goodbye sampleExistFs "t" "s" 0 (sockPath "t" "s") = false ∧
    goodbye sampleExistFs "t" "s" 0 (pidPath "t" "s") = false ∧
    goodbye sampleExistFs "t" "s" 0 "other" = sampleExistFs "other" ∧
    goodbye sampleExistFs "t" "s" 1 = sampleExistFs := by
  have h := c9_goodbye_cleanup sampleExistFs "t" "s" 0
  have h1 := c9_goodbye_cleanup sampleExistFs "t" "s" 1
  exact ⟨(h.1 rfl).1, (h.1 rfl).2.1, (h.1 rfl).2.2 "other" (by decide) (by decide),
    h1.2 (by decide)⟩

end KakLsp
